import Mathlib

/-!
Shallow embedding of the EscalateAI frontend (Next.js app) and, where the
repository's backend sources are absent, a model of the generation service
described by the specification.

The builder page (`frontend/app/builder/page.tsx`) is a three-step form
wizard with per-step validation; the result page
(`frontend/app/result/page.tsx`) reads a stored generation result from
sessionStorage and renders it.
-/

namespace EscalateAI

/-- The `Category` union type of `builder/page.tsx` (lines 7-15):
the eight complaint domains. -/
inductive Category
  | college_hostel
  | internet_network
  | ecommerce_refund
  | banking_upi
  | rent_landlord
  | workplace_hr
  | courier_delivery
  | hospital_billing
deriving DecidableEq

/-- The `Tone` union type of `builder/page.tsx` (line 17). -/
inductive Tone
  | polite
  | firm
  | strict
deriving DecidableEq

/-- The `FormData` interface of `builder/page.tsx` (lines 19-31).
The TypeScript fields `category : Category | ''` and `tone : Tone | ''`
are embedded as `Option`; `none` is the empty-string sentinel of the
unselected state. -/
structure FormData where
  category : Option Category
  tone : Option Tone
  title : String
  description : String
  incident_date : String
  location : String
  company_or_institution : String
  recipient_name : String
  order_or_ticket_id : String
  desired_resolution : String
  proof_available : Bool
deriving DecidableEq

/-- The keys of `FormData`, i.e. `keyof FormData` in the source. -/
inductive FieldName
  | category
  | tone
  | title
  | description
  | incident_date
  | location
  | company_or_institution
  | recipient_name
  | order_or_ticket_id
  | desired_resolution
  | proof_available
deriving DecidableEq

/-- Every key of `FormData`, in declaration order. -/
def FieldName.all : List FieldName :=
  [.category, .tone, .title, .description, .incident_date, .location,
   .company_or_institution, .recipient_name, .order_or_ticket_id,
   .desired_resolution, .proof_available]

/-- The `errors` state: `Partial<Record<keyof FormData, string>>`.
A key mapped to `undefined` (or absent) is `none`. -/
abbrev Errors := FieldName → Option String

/-- The empty error object `{}`. -/
def noErrors : Errors := fun _ => none

/-- Assigning `newErrors[field] = msg`. -/
def Errors.set (e : Errors) (f : FieldName) (msg : String) : Errors :=
  fun g => if g = f then some msg else e g

/-- `Object.keys(newErrors).length === 0`: no field carries an error.
`validateStep` only ever assigns truthy message strings, so emptiness of
the object coincides with every field mapping to `none`. -/
def Errors.isEmpty (e : Errors) : Bool :=
  FieldName.all.all fun f => (e f).isNone

/-- The `step === 1` block of `validateStep` (`builder/page.tsx` lines
81-84): category and tone must be selected (`!formData.category`,
`!formData.tone` are the emptiness tests on the union types). -/
def step1Errors (f : FormData) : Errors :=
  let e := noErrors
  let e := if f.category.isNone then Errors.set e .category "Please select a category" else e
  if f.tone.isNone then Errors.set e .tone "Please select a tone" else e

/-- The `step === 2` block of `validateStep` (lines 86-93): title at least
5 characters, description at least 20.  `!formData.title` is the
empty-string test, subsumed by the length test but kept as written. -/
def step2Errors (f : FormData) : Errors :=
  let e := noErrors
  let e := if f.title = "" ∨ f.title.length < 5 then
    Errors.set e .title "Title must be at least 5 characters" else e
  if f.description = "" ∨ f.description.length < 20 then
    Errors.set e .description "Description must be at least 20 characters" else e

/-- The `step === 3` block of `validateStep` (lines 95-99): desired
resolution at least 5 characters. -/
def step3Errors (f : FormData) : Errors :=
  let e := noErrors
  if f.desired_resolution = "" ∨ f.desired_resolution.length < 5 then
    Errors.set e .desired_resolution "Desired resolution must be at least 5 characters" else e

/-- The error object `validateStep` builds for a given step.  In the
source the three `if (step === k)` blocks write into one `newErrors`
object; the step values are mutually exclusive, so exactly one block can
fire. -/
def validateStepErrors (step : Nat) (f : FormData) : Errors :=
  if step = 1 then step1Errors f
  else if step = 2 then step2Errors f
  else if step = 3 then step3Errors f
  else noErrors

/-- `validateStep` (`builder/page.tsx` lines 78-103): returns the error
object it stores via `setErrors` together with its boolean result
`Object.keys(newErrors).length === 0`. -/
def validateStep (step : Nat) (f : FormData) : Errors × Bool :=
  let e := validateStepErrors step f
  (e, Errors.isEmpty e)

/-- The boolean result of `validateStep`. -/
def validateStepB (step : Nat) (f : FormData) : Bool :=
  (validateStep step f).2

/-- A payload satisfying every validation rule of the specification:
category and tone drawn from their enumerations, title at least 5
characters, description at least 20, desired resolution at least 5. -/
def validRequest (f : FormData) : Prop :=
  (∃ c : Category, f.category = some c) ∧ (∃ t : Tone, f.tone = some t) ∧
    5 ≤ f.title.length ∧ 20 ≤ f.description.length ∧
    5 ≤ f.desired_resolution.length

lemma isEmpty_noErrors : Errors.isEmpty noErrors = true := by decide

lemma empty_or_short_iff (s : String) {n : Nat} (hn : 0 < n) :
    (s = "" ∨ s.length < n) ↔ s.length < n := by
  constructor
  · rintro (h | h)
    · subst h
      have h0 : ("" : String).length = 0 := rfl
      omega
    · exact h
  · exact Or.inr

lemma step1_valid_iff (f : FormData) :
    Errors.isEmpty (step1Errors f) = true ↔
      f.category.isSome = true ∧ f.tone.isSome = true := by
  cases hc : f.category <;> cases ht : f.tone <;>
    simp [step1Errors, hc, ht, Errors.isEmpty, FieldName.all, Errors.set,
      noErrors]

lemma step2_valid_iff (f : FormData) :
    Errors.isEmpty (step2Errors f) = true ↔
      5 ≤ f.title.length ∧ 20 ≤ f.description.length := by
  have ht := empty_or_short_iff f.title (by norm_num : (0:Nat) < 5)
  have hd := empty_or_short_iff f.description (by norm_num : (0:Nat) < 20)
  simp only [step2Errors, ht, hd]
  by_cases h1 : f.title.length < 5 <;> by_cases h2 : f.description.length < 20 <;>
    simp [h1, h2, Errors.isEmpty, FieldName.all, Errors.set, noErrors] <;>
      omega

lemma step3_valid_iff (f : FormData) :
    Errors.isEmpty (step3Errors f) = true ↔
      5 ≤ f.desired_resolution.length := by
  have hr := empty_or_short_iff f.desired_resolution (by norm_num : (0:Nat) < 5)
  simp only [step3Errors, hr]
  by_cases h : f.desired_resolution.length < 5 <;>
    simp [h, Errors.isEmpty, FieldName.all, Errors.set, noErrors] <;> omega

lemma validateStepB_one (f : FormData) :
    validateStepB 1 f = true ↔ f.category.isSome = true ∧ f.tone.isSome = true := by
  simpa [validateStepB, validateStep, validateStepErrors] using step1_valid_iff f

lemma validateStepB_two (f : FormData) :
    validateStepB 2 f = true ↔ 5 ≤ f.title.length ∧ 20 ≤ f.description.length := by
  simpa [validateStepB, validateStep, validateStepErrors] using step2_valid_iff f

lemma validateStepB_three (f : FormData) :
    validateStepB 3 f = true ↔ 5 ≤ f.desired_resolution.length := by
  simpa [validateStepB, validateStep, validateStepErrors] using step3_valid_iff f

/-- Claim C1: for every form state, validation (all three wizard steps)
accepts exactly when category is one of the 8 enumerated domains, tone is
one of the three tones, the title has length at least 5, the description
length at least 20 and the desired resolution length at least 5; no other
field is constrained. -/
theorem validation_accepts_iff_rules (f : FormData) :
    (validateStepB 1 f && validateStepB 2 f && validateStepB 3 f) = true ↔
      validRequest f := by
  constructor
  · intro h
    simp only [Bool.and_eq_true] at h
    obtain ⟨⟨h1, h2⟩, h3⟩ := h
    obtain ⟨hc, ht⟩ := (validateStepB_one f).1 h1
    obtain ⟨hT, hD⟩ := (validateStepB_two f).1 h2
    have hR := (validateStepB_three f).1 h3
    refine ⟨?_, ?_, hT, hD, hR⟩
    · cases hx : f.category with
      | none => rw [hx] at hc; simp at hc
      | some c => exact ⟨c, rfl⟩
    · cases hx : f.tone with
      | none => rw [hx] at ht; simp at ht
      | some t => exact ⟨t, rfl⟩
  · rintro ⟨⟨c, hc⟩, ⟨t, ht⟩, hT, hD, hR⟩
    simp only [Bool.and_eq_true]
    exact ⟨⟨(validateStepB_one f).2 (by simp [hc, ht]),
      (validateStepB_two f).2 ⟨hT, hD⟩⟩, (validateStepB_three f).2 hR⟩

lemma set_apply_same (e : Errors) (f : FieldName) (msg : String) :
    Errors.set e f msg f = some msg := by
  simp [Errors.set]

lemma set_apply_ne (e : Errors) (f g : FieldName) (msg : String) (h : g ≠ f) :
    Errors.set e f msg g = e g := by
  simp [Errors.set, h]

lemma step1Errors_category (f : FormData) :
    step1Errors f FieldName.category =
      if f.category.isNone then some "Please select a category" else none := by
  by_cases hc : f.category.isNone <;> by_cases ht : f.tone.isNone <;>
    simp [step1Errors, hc, ht, Errors.set, noErrors]

lemma step1Errors_tone (f : FormData) :
    step1Errors f FieldName.tone =
      if f.tone.isNone then some "Please select a tone" else none := by
  by_cases hc : f.category.isNone <;> by_cases ht : f.tone.isNone <;>
    simp [step1Errors, hc, ht, Errors.set, noErrors]

lemma step2Errors_title (f : FormData) :
    step2Errors f FieldName.title =
      if f.title.length < 5 then some "Title must be at least 5 characters"
      else none := by
  have ht := empty_or_short_iff f.title (by norm_num : (0:Nat) < 5)
  have hd := empty_or_short_iff f.description (by norm_num : (0:Nat) < 20)
  simp only [step2Errors, ht, hd]
  by_cases h1 : f.title.length < 5 <;> by_cases h2 : f.description.length < 20 <;>
    simp [h1, h2, Errors.set, noErrors]

lemma step2Errors_description (f : FormData) :
    step2Errors f FieldName.description =
      if f.description.length < 20 then
        some "Description must be at least 20 characters"
      else none := by
  have ht := empty_or_short_iff f.title (by norm_num : (0:Nat) < 5)
  have hd := empty_or_short_iff f.description (by norm_num : (0:Nat) < 20)
  simp only [step2Errors, ht, hd]
  by_cases h1 : f.title.length < 5 <;> by_cases h2 : f.description.length < 20 <;>
    simp [h1, h2, Errors.set, noErrors]

lemma step3Errors_resolution (f : FormData) :
    step3Errors f FieldName.desired_resolution =
      if f.desired_resolution.length < 5 then
        some "Desired resolution must be at least 5 characters"
      else none := by
  have hr := empty_or_short_iff f.desired_resolution (by norm_num : (0:Nat) < 5)
  simp only [step3Errors, hr]
  by_cases h : f.desired_resolution.length < 5 <;>
    simp [h, Errors.set, noErrors]

lemma validateStepErrors_one (f : FormData) :
    validateStepErrors 1 f = step1Errors f := rfl

lemma validateStepErrors_two (f : FormData) :
    validateStepErrors 2 f = step2Errors f := rfl

lemma validateStepErrors_three (f : FormData) :
    validateStepErrors 3 f = step3Errors f := rfl

/-- Claim C4: validation reports every violated field of the step being
validated, not just the first; each violated field is mapped to a message
naming it.  In particular, when both the title is shorter than 5
characters and the description is shorter than 20, the single error
object of step 2 carries both violations together. -/
theorem validation_reports_every_violation (f : FormData) :
    (((validateStep 1 f).1 FieldName.category).isSome = true ↔ f.category = none) ∧
    (((validateStep 1 f).1 FieldName.tone).isSome = true ↔ f.tone = none) ∧
    (((validateStep 2 f).1 FieldName.title).isSome = true ↔ f.title.length < 5) ∧
    (((validateStep 2 f).1 FieldName.description).isSome = true ↔
      f.description.length < 20) ∧
    (((validateStep 3 f).1 FieldName.desired_resolution).isSome = true ↔
      f.desired_resolution.length < 5) ∧
    (f.title.length < 5 → f.description.length < 20 →
      (validateStep 2 f).1 FieldName.title =
          some "Title must be at least 5 characters" ∧
        (validateStep 2 f).1 FieldName.description =
          some "Description must be at least 20 characters" ∧
        (validateStep 2 f).2 = false) := by
  refine ⟨?_, ?_, ?_, ?_, ?_, ?_⟩
  · rw [show (validateStep 1 f).1 = step1Errors f from rfl, step1Errors_category]
    cases f.category <;> simp
  · rw [show (validateStep 1 f).1 = step1Errors f from rfl, step1Errors_tone]
    cases f.tone <;> simp
  · rw [show (validateStep 2 f).1 = step2Errors f from rfl, step2Errors_title]
    by_cases h : f.title.length < 5 <;> simp [h]
  · rw [show (validateStep 2 f).1 = step2Errors f from rfl,
      step2Errors_description]
    by_cases h : f.description.length < 20 <;> simp [h]
  · rw [show (validateStep 3 f).1 = step3Errors f from rfl,
      step3Errors_resolution]
    by_cases h : f.desired_resolution.length < 5 <;> simp [h]
  · intro hT hD
    refine ⟨?_, ?_, ?_⟩
    · rw [show (validateStep 2 f).1 = step2Errors f from rfl,
        step2Errors_title, if_pos hT]
    · rw [show (validateStep 2 f).1 = step2Errors f from rfl,
        step2Errors_description, if_pos hD]
    · have h2 : ¬ (5 ≤ f.title.length ∧ 20 ≤ f.description.length) := by omega
      have := (validateStepB_two f).not.2 (by exact h2)
      simpa [validateStepB] using Bool.eq_false_iff.2 fun hb => this hb

/-- Witness for C4 at a concrete short title and short description. -/
theorem validation_reports_every_violation_witness :
    ("ab".length < 5 ∧ "too short".length < 20) ∧
      (validateStep 2
          { category := none, tone := none, title := "ab",
            description := "too short", incident_date := "", location := "",
            company_or_institution := "", recipient_name := "",
            order_or_ticket_id := "", desired_resolution := "",
            proof_available := false }).1 FieldName.title =
        some "Title must be at least 5 characters" ∧
      (validateStep 2
          { category := none, tone := none, title := "ab",
            description := "too short", incident_date := "", location := "",
            company_or_institution := "", recipient_name := "",
            order_or_ticket_id := "", desired_resolution := "",
            proof_available := false }).1 FieldName.description =
        some "Description must be at least 20 characters" :=
  ⟨⟨by decide, by decide⟩,
    ((validation_reports_every_violation _).2.2.2.2.2 (by decide) (by decide)).1,
    ((validation_reports_every_violation _).2.2.2.2.2 (by decide) (by decide)).2.1⟩

/-- Claim C6: the result of `validateStep` — both the accept/reject
boolean and the error object — depends only on category, tone, title,
description and desired resolution; two form states agreeing on those
five fields validate identically at every step. -/
theorem validateStep_ignores_optional_fields (step : Nat) (f g : FormData)
    (hc : f.category = g.category) (ht : f.tone = g.tone)
    (hT : f.title = g.title) (hD : f.description = g.description)
    (hR : f.desired_resolution = g.desired_resolution) :
    validateStep step f = validateStep step g := by
  simp only [validateStep, validateStepErrors, step1Errors, step2Errors,
    step3Errors, hc, ht, hT, hD, hR]

/-- Witness for C6: two states differing in every optional field
validate identically. -/
theorem validateStep_ignores_optional_fields_witness :
    validateStep 2
        { category := some .banking_upi, tone := some .polite, title := "abc",
          description := "d", incident_date := "", location := "",
          company_or_institution := "", recipient_name := "",
          order_or_ticket_id := "", desired_resolution := "ok",
          proof_available := false } =
      validateStep 2
        { category := some .banking_upi, tone := some .polite, title := "abc",
          description := "d", incident_date := "2024-01-01",
          location := "Mumbai", company_or_institution := "Bank",
          recipient_name := "Support", order_or_ticket_id := "REF-1",
          desired_resolution := "ok", proof_available := true } :=
  validateStep_ignores_optional_fields 2 _ _ rfl rfl rfl rfl rfl

/-- The runtime type of each `FormData` field, as written into the state
by `updateField('field', value)` at the call sites of `builder/page.tsx`. -/
@[reducible]
def FieldVal : FieldName → Type
  | .category => Option Category
  | .tone => Option Tone
  | .proof_available => Bool
  | _ => String

/-- The spread update `{ ...prev, [field]: value }` of `updateField`. -/
def setField (s : FormData) : (f : FieldName) → FieldVal f → FormData
  | .category, v => { s with category := v }
  | .tone, v => { s with tone := v }
  | .title, v => { s with title := v }
  | .description, v => { s with description := v }
  | .incident_date, v => { s with incident_date := v }
  | .location, v => { s with location := v }
  | .company_or_institution, v => { s with company_or_institution := v }
  | .recipient_name, v => { s with recipient_name := v }
  | .order_or_ticket_id, v => { s with order_or_ticket_id := v }
  | .desired_resolution, v => { s with desired_resolution := v }
  | .proof_available, v => { s with proof_available := v }

/-- Reading a `FormData` field by name. -/
def getField (s : FormData) : (f : FieldName) → FieldVal f
  | .category => s.category
  | .tone => s.tone
  | .title => s.title
  | .description => s.description
  | .incident_date => s.incident_date
  | .location => s.location
  | .company_or_institution => s.company_or_institution
  | .recipient_name => s.recipient_name
  | .order_or_ticket_id => s.order_or_ticket_id
  | .desired_resolution => s.desired_resolution
  | .proof_available => s.proof_available

/-- The mutable state of `BuilderPage`: `currentStep`, `formData` and
`errors` (the `loading` flag plays no role in the verified claims). -/
structure BuilderState where
  currentStep : Nat
  formData : FormData
  errors : Errors

/-- The initial `formData` state (`builder/page.tsx` lines 56-68). -/
def initialFormData : FormData :=
  { category := none, tone := none, title := "", description := "",
    incident_date := "", location := "", company_or_institution := "",
    recipient_name := "", order_or_ticket_id := "",
    desired_resolution := "", proof_available := false }

/-- The initial page state: `useState(1)`, empty form, empty errors. -/
def initialState : BuilderState :=
  { currentStep := 1, formData := initialFormData, errors := noErrors }

/-- `{ ...prev, [field]: undefined }`: clearing one field's error. -/
def clearError (e : Errors) (f : FieldName) : Errors :=
  fun g => if g = f then none else e g

/-- `updateField` (`builder/page.tsx` lines 70-76): writes the named
field and, when that field currently carries an error, clears it. -/
def updateField (st : BuilderState) (f : FieldName) (v : FieldVal f) :
    BuilderState :=
  { st with
    formData := setField st.formData f v
    errors := if (st.errors f).isSome then clearError st.errors f
      else st.errors }

/-- `handleNext` (lines 105-109): validate the current step; on success
advance with `Math.min(prev + 1, 3)`; either way the freshly computed
error object is stored. -/
def handleNext (st : BuilderState) : BuilderState :=
  let r := validateStep st.currentStep st.formData
  if r.2 then
    { st with errors := r.1, currentStep := min (st.currentStep + 1) 3 }
  else { st with errors := r.1 }

/-- `handleBack` (lines 111-113): `Math.max(prev - 1, 1)`. -/
def handleBack (st : BuilderState) : BuilderState :=
  { st with currentStep := max (st.currentStep - 1) 1 }

/-- The synchronous head of `handleSubmit` (lines 115-129): validate
step 3 and, only if it passes, issue `POST /generate` with
`JSON.stringify(formData)` as the payload.  Returns the updated state
and the payload posted, if any. -/
def handleSubmitValidate (st : BuilderState) : BuilderState × Option FormData :=
  let r := validateStep 3 st.formData
  if r.2 then ({ st with errors := r.1 }, some st.formData)
  else ({ st with errors := r.1 }, none)

/-- Which fields have a rendered, editable input at each wizard step
(`builder/page.tsx`: step 1 renders category and tone, step 2 renders
title, description, incident date and location, step 3 renders company,
recipient, order id, desired resolution and the proof checkbox). -/
def editableAt (step : Nat) (f : FieldName) : Bool :=
  if step = 1 then decide (f = .category ∨ f = .tone)
  else if step = 2 then
    decide (f = .title ∨ f = .description ∨ f = .incident_date ∨ f = .location)
  else if step = 3 then
    decide (f = .company_or_institution ∨ f = .recipient_name ∨
      f = .order_or_ticket_id ∨ f = .desired_resolution ∨
      f = .proof_available)
  else false

/-- The states of `BuilderPage` reachable through its event handlers:
editing a field rendered at the current step, `Next` (rendered only while
`currentStep < 3`), `Back` (disabled at step 1) and `Submit` (rendered
only at step 3). -/
inductive Reachable : BuilderState → Prop
  | init : Reachable initialState
  | update {st : BuilderState} (f : FieldName) (v : FieldVal f) :
      Reachable st → editableAt st.currentStep f = true →
      Reachable (updateField st f v)
  | next {st : BuilderState} :
      Reachable st → st.currentStep < 3 → Reachable (handleNext st)
  | back {st : BuilderState} :
      Reachable st → st.currentStep ≠ 1 → Reachable (handleBack st)
  | submit {st : BuilderState} :
      Reachable st → st.currentStep = 3 →
      Reachable (handleSubmitValidate st).1

/-- The step-1 rules: category and tone selected. -/
def stepOneOK (f : FormData) : Prop :=
  f.category.isSome = true ∧ f.tone.isSome = true

/-- The step-2 rules: title and description long enough. -/
def stepTwoOK (f : FormData) : Prop :=
  5 ≤ f.title.length ∧ 20 ≤ f.description.length

/-- The wizard invariant: the step counter stays in `{1, 2, 3}`, any
state at step 2 or later has passed step-1 validation, and any state at
step 3 has passed step-2 validation. -/
def WizardInv (st : BuilderState) : Prop :=
  1 ≤ st.currentStep ∧ st.currentStep ≤ 3 ∧
    (2 ≤ st.currentStep → stepOneOK st.formData) ∧
    (st.currentStep = 3 → stepTwoOK st.formData)

lemma setField_category (s : FormData) (f : FieldName) (v : FieldVal f)
    (h : f ≠ .category) : (setField s f v).category = s.category := by
  cases f <;> first | exact absurd rfl h | rfl

lemma setField_tone (s : FormData) (f : FieldName) (v : FieldVal f)
    (h : f ≠ .tone) : (setField s f v).tone = s.tone := by
  cases f <;> first | exact absurd rfl h | rfl

lemma setField_title (s : FormData) (f : FieldName) (v : FieldVal f)
    (h : f ≠ .title) : (setField s f v).title = s.title := by
  cases f <;> first | exact absurd rfl h | rfl

lemma setField_description (s : FormData) (f : FieldName) (v : FieldVal f)
    (h : f ≠ .description) : (setField s f v).description = s.description := by
  cases f <;> first | exact absurd rfl h | rfl

lemma editable_not_step1 {st : Nat} {f : FieldName}
    (hed : editableAt st f = true) (h : st ≠ 1) :
    f ≠ .category ∧ f ≠ .tone := by
  unfold editableAt at hed
  rw [if_neg h] at hed
  by_cases h2 : st = 2
  · rw [if_pos h2] at hed
    rcases of_decide_eq_true hed with h' | h' | h' | h' <;> subst h' <;>
      exact ⟨by simp, by simp⟩
  · rw [if_neg h2] at hed
    by_cases h3 : st = 3
    · rw [if_pos h3] at hed
      rcases of_decide_eq_true hed with h' | h' | h' | h' | h' <;> subst h' <;>
        exact ⟨by simp, by simp⟩
    · rw [if_neg h3] at hed
      exact absurd hed (by simp)

lemma editable_step3 {f : FieldName} (hed : editableAt 3 f = true) :
    f ≠ .title ∧ f ≠ .description := by
  unfold editableAt at hed
  norm_num at hed
  rcases hed with h' | h' | h' | h' | h' <;> subst h' <;>
    exact ⟨by simp, by simp⟩

lemma handleSubmitValidate_fst (st : BuilderState) :
    (handleSubmitValidate st).1 =
      { st with errors := (validateStep 3 st.formData).1 } := by
  by_cases hv : (validateStep 3 st.formData).2 = true
  · simp only [handleSubmitValidate]
    rw [if_pos hv]
  · simp only [handleSubmitValidate]
    rw [if_neg hv]

lemma handleNext_of_valid {st : BuilderState}
    (hv : (validateStep st.currentStep st.formData).2 = true) :
    handleNext st =
      { st with
        errors := (validateStep st.currentStep st.formData).1
        currentStep := min (st.currentStep + 1) 3 } := by
  simp only [handleNext]
  rw [if_pos hv]

lemma handleNext_of_invalid {st : BuilderState}
    (hv : ¬ (validateStep st.currentStep st.formData).2 = true) :
    handleNext st =
      { st with errors := (validateStep st.currentStep st.formData).1 } := by
  simp only [handleNext]
  rw [if_neg hv]

/-- Every reachable state of the builder page satisfies the wizard
invariant. -/
lemma reachable_inv {st : BuilderState} (h : Reachable st) : WizardInv st := by
  induction h with
  | init =>
    exact ⟨by decide, by decide, fun h2 => absurd h2 (by decide),
      fun h3 => absurd h3 (by decide)⟩
  | @update st f v hr hed ih =>
    obtain ⟨ih1, ih2, ihA, ihB⟩ := ih
    refine ⟨ih1, ih2, ?_, ?_⟩
    · intro h2
      have h2' : 2 ≤ st.currentStep := h2
      obtain ⟨hA1, hA2⟩ := ihA h2'
      obtain ⟨hc, ht⟩ := editable_not_step1 hed (by omega)
      refine ⟨?_, ?_⟩
      · show (setField st.formData f v).category.isSome = true
        rw [setField_category st.formData f v hc]
        exact hA1
      · show (setField st.formData f v).tone.isSome = true
        rw [setField_tone st.formData f v ht]
        exact hA2
    · intro h3
      have h3' : st.currentStep = 3 := h3
      obtain ⟨hB1, hB2⟩ := ihB h3'
      have hed3 : editableAt 3 f = true := by rw [← h3']; exact hed
      obtain ⟨hT, hD⟩ := editable_step3 hed3
      refine ⟨?_, ?_⟩
      · show 5 ≤ (setField st.formData f v).title.length
        rw [setField_title st.formData f v hT]
        exact hB1
      · show 20 ≤ (setField st.formData f v).description.length
        rw [setField_description st.formData f v hD]
        exact hB2
  | @next st hr hlt ih =>
    obtain ⟨ih1, ih2, ihA, ihB⟩ := ih
    by_cases hv : (validateStep st.currentStep st.formData).2 = true
    · rw [handleNext_of_valid hv]
      have hs : st.currentStep = 1 ∨ st.currentStep = 2 := by omega
      refine ⟨?_, ?_, ?_, ?_⟩
      · show 1 ≤ min (st.currentStep + 1) 3
        omega
      · show min (st.currentStep + 1) 3 ≤ 3
        omega
      · intro h2
        show stepOneOK st.formData
        rcases hs with h1 | h1
        · rw [h1] at hv
          exact (validateStepB_one st.formData).1 hv
        · exact ihA (by omega)
      · intro h3
        have h3' : min (st.currentStep + 1) 3 = 3 := h3
        have hs2 : st.currentStep = 2 := by omega
        show stepTwoOK st.formData
        rw [hs2] at hv
        exact (validateStepB_two st.formData).1 hv
    · rw [handleNext_of_invalid hv]
      exact ⟨ih1, ih2, ihA, ihB⟩
  | @back st hr hne ih =>
    obtain ⟨ih1, ih2, ihA, ihB⟩ := ih
    refine ⟨?_, ?_, ?_, ?_⟩
    · show 1 ≤ max (st.currentStep - 1) 1
      omega
    · show max (st.currentStep - 1) 1 ≤ 3
      omega
    · intro h2
      have h2' : 2 ≤ max (st.currentStep - 1) 1 := h2
      show stepOneOK st.formData
      exact ihA (by omega)
    · intro h3
      have h3' : max (st.currentStep - 1) 1 = 3 := h3
      exact absurd h3' (by omega)
  | @submit st hr h3 ih =>
    rw [handleSubmitValidate_fst]
    exact ih

/-- Claim C2: an invalid request never reaches the backend.  In every
reachable state of the wizard in which the submit button is rendered
(step 3), if `handleSubmit` issues the `POST /generate` call, then the
payload it sends satisfies every validation rule: step transitions and
submission are each gated by `validateStep`. -/
theorem posted_payload_is_valid {st : BuilderState} (h : Reachable st)
    (h3 : st.currentStep = 3) {p : FormData}
    (hp : (handleSubmitValidate st).2 = some p) : validRequest p := by
  obtain ⟨_, _, hA, hB⟩ := reachable_inv h
  obtain ⟨hc, ht⟩ := hA (by omega)
  obtain ⟨hT, hD⟩ := hB h3
  by_cases hv : (validateStep 3 st.formData).2 = true
  · have hps : (handleSubmitValidate st).2 = some st.formData := by
      simp only [handleSubmitValidate]
      rw [if_pos hv]
    rw [hps] at hp
    obtain rfl : st.formData = p := by injection hp
    have hR := (validateStepB_three st.formData).1 hv
    refine ⟨?_, ?_, hT, hD, hR⟩
    · cases hx : st.formData.category with
      | none => rw [hx] at hc; simp at hc
      | some c => exact ⟨c, rfl⟩
    · cases hx : st.formData.tone with
      | none => rw [hx] at ht; simp at ht
      | some t => exact ⟨t, rfl⟩
  · have hps : (handleSubmitValidate st).2 = none := by
      simp only [handleSubmitValidate]
      rw [if_neg hv]
    rw [hps] at hp
    exact absurd hp (by simp)

/-- A concrete interaction trace: choose category and tone, advance,
fill title and description, advance, fill the desired resolution. -/
def demoState : BuilderState :=
  updateField
    (handleNext
      (updateField
        (updateField
          (handleNext
            (updateField
              (updateField initialState .category
                (some Category.ecommerce_refund))
              .tone (some Tone.firm)))
          .title "Delayed refund for order")
        .description "The refund promised three weeks ago has not arrived."))
    .desired_resolution "Full refund within 7 days"

lemma demoState_reachable : Reachable demoState :=
  Reachable.update .desired_resolution "Full refund within 7 days"
    (Reachable.next
      (Reachable.update .description
        "The refund promised three weeks ago has not arrived."
        (Reachable.update .title "Delayed refund for order"
          (Reachable.next
            (Reachable.update .tone (some Tone.firm)
              (Reachable.update .category (some Category.ecommerce_refund)
                Reachable.init (by decide))
              (by decide))
            (by decide))
          (by decide))
        (by decide))
      (by decide))
    (by decide)

/-- Witness for C2: on the concrete trace, the posted payload satisfies
every rule. -/
theorem posted_payload_is_valid_witness : validRequest demoState.formData :=
  posted_payload_is_valid demoState_reachable (by decide) (by decide)

/-- Claim C8: the wizard step counter is always in `{1, 2, 3}`:
`currentStep` starts at 1 and every reachable state keeps
`1 ≤ currentStep ≤ 3` (`handleNext` clamps at 3, `handleBack` at 1). -/
theorem currentStep_always_in_range :
    initialState.currentStep = 1 ∧
      ∀ st : BuilderState, Reachable st →
        1 ≤ st.currentStep ∧ st.currentStep ≤ 3 := by
  refine ⟨rfl, fun st h => ?_⟩
  obtain ⟨h1, h2, _, _⟩ := reachable_inv h
  exact ⟨h1, h2⟩

/-- Witness for C8 at the initial state. -/
theorem currentStep_always_in_range_witness :
    1 ≤ initialState.currentStep ∧ initialState.currentStep ≤ 3 :=
  currentStep_always_in_range.2 initialState Reachable.init

lemma getField_setField_ne (s : FormData) (f g : FieldName) (v : FieldVal f)
    (h : g ≠ f) : getField (setField s f v) g = getField s g := by
  cases f <;> cases g <;> first | exact absurd rfl h | rfl

lemma getField_setField_same (s : FormData) (f : FieldName) (v : FieldVal f) :
    getField (setField s f v) f = v := by
  cases f <;> rfl

/-- Claim C10: `updateField(field, value)` writes exactly the named form
field, leaves every other form field unchanged, clears at most the named
field's validation error (that field's error is `undefined` afterwards,
all other errors unchanged), and leaves the step counter alone. -/
theorem updateField_frame (st : BuilderState) (f : FieldName)
    (v : FieldVal f) :
    (∀ g : FieldName, g ≠ f →
        getField (updateField st f v).formData g = getField st.formData g ∧
          (updateField st f v).errors g = st.errors g) ∧
      getField (updateField st f v).formData f = v ∧
      (updateField st f v).errors f = none ∧
      (updateField st f v).currentStep = st.currentStep := by
  refine ⟨fun g hg => ⟨?_, ?_⟩, ?_, ?_, rfl⟩
  · exact getField_setField_ne st.formData f g v hg
  · show (if (st.errors f).isSome then clearError st.errors f
      else st.errors) g = st.errors g
    by_cases h : (st.errors f).isSome <;> simp [h, clearError, hg]
  · exact getField_setField_same st.formData f v
  · show (if (st.errors f).isSome then clearError st.errors f
      else st.errors) f = none
    by_cases h : (st.errors f).isSome = true
    · rw [if_pos h]
      simp [clearError]
    · rw [if_neg h]
      exact Option.not_isSome_iff_eq_none.1 h

/-- Witness for C10: updating the title leaves the description field and
its error untouched. -/
theorem updateField_frame_witness :
    FieldName.description ≠ FieldName.title ∧
      getField (updateField initialState .title "Hello").formData
          .description =
        getField initialState.formData .description ∧
      (updateField initialState .title "Hello").errors .description =
        initialState.errors .description :=
  ⟨by decide,
    ((updateField_frame initialState .title "Hello").1 .description
      (by decide)).1,
    ((updateField_frame initialState .title "Hello").1 .description
      (by decide)).2⟩

/-- The `ComplaintResult` interface of `result/page.tsx` (lines 8-18):
the success payload consumed by the result page. -/
structure ComplaintResult where
  request_id : String
  whatsapp_message : String
  email_subject : String
  email_body : String
  escalation_subject : String
  escalation_body : String
  followup_message : String
  tips : List String
  required_placeholders : List String
deriving DecidableEq

/-- A minimal JSON value model, enough to describe the serialized
shapes exchanged with the backend. -/
inductive Json
  | str (s : String)
  | bool (b : Bool)
  | arr (xs : List Json)

/-- The string literal of each category, as in the `Category` union and
the `CATEGORIES` keys. -/
def categoryValue : Category → String
  | .college_hostel => "college_hostel"
  | .internet_network => "internet_network"
  | .ecommerce_refund => "ecommerce_refund"
  | .banking_upi => "banking_upi"
  | .rent_landlord => "rent_landlord"
  | .workplace_hr => "workplace_hr"
  | .courier_delivery => "courier_delivery"
  | .hospital_billing => "hospital_billing"

/-- The string literal of each tone. -/
def toneValue : Tone → String
  | .polite => "polite"
  | .firm => "firm"
  | .strict => "strict"

/-- Serializing the category state: the empty string when unselected. -/
def categoryJson : Option Category → Json
  | none => .str ""
  | some c => .str (categoryValue c)

/-- Serializing the tone state: the empty string when unselected. -/
def toneJson : Option Tone → Json
  | none => .str ""
  | some t => .str (toneValue t)

/-- `JSON.stringify(formData)`: the key/value pairs of the request body
of `POST /generate`, in the declaration order of `FormData`. -/
def FormData.toJson (f : FormData) : List (String × Json) :=
  [("category", categoryJson f.category),
   ("tone", toneJson f.tone),
   ("title", .str f.title),
   ("description", .str f.description),
   ("incident_date", .str f.incident_date),
   ("location", .str f.location),
   ("company_or_institution", .str f.company_or_institution),
   ("recipient_name", .str f.recipient_name),
   ("order_or_ticket_id", .str f.order_or_ticket_id),
   ("desired_resolution", .str f.desired_resolution),
   ("proof_available", .bool f.proof_available)]

/-- The key/value pairs of a serialized `ComplaintResult`, in the
declaration order of the interface. -/
def ComplaintResult.toJson (r : ComplaintResult) : List (String × Json) :=
  [("request_id", .str r.request_id),
   ("whatsapp_message", .str r.whatsapp_message),
   ("email_subject", .str r.email_subject),
   ("email_body", .str r.email_body),
   ("escalation_subject", .str r.escalation_subject),
   ("escalation_body", .str r.escalation_body),
   ("followup_message", .str r.followup_message),
   ("tips", .arr (r.tips.map .str)),
   ("required_placeholders", .arr (r.required_placeholders.map .str))]

/-- Claim C5: the interface field names match the specification exactly.
The body sent to `POST /generate` has exactly the eleven
`ComplaintRequest` field names, and the success result consumed by the
client has exactly the nine `GenerationResult` field names. -/
theorem interface_field_names_match (f : FormData) (r : ComplaintResult) :
    (FormData.toJson f).map Prod.fst =
        ["category", "tone", "title", "description", "incident_date",
         "location", "company_or_institution", "recipient_name",
         "order_or_ticket_id", "desired_resolution", "proof_available"] ∧
      (ComplaintResult.toJson r).map Prod.fst =
        ["request_id", "whatsapp_message", "email_subject", "email_body",
         "escalation_subject", "escalation_body", "followup_message",
         "tips", "required_placeholders"] :=
  ⟨rfl, rfl⟩

/-- The result-page load effect (`result/page.tsx` lines 31-45): read
`sessionStorage.getItem('complaintResult')`; if absent, redirect to the
builder; otherwise `JSON.parse` it — on parse failure redirect to the
builder, on success store it in the `result` state.  Returns the
redirect target (if any) and the `result` state; the page renders the
result cards only when `result` is set (line 82 renders the loading
placeholder otherwise). -/
def resultPageLoad (parse : String → Option ComplaintResult)
    (stored : Option String) : Option String × Option ComplaintResult :=
  match stored with
  | none => (some "/builder", none)
  | some s =>
    match parse s with
    | none => (some "/builder", none)
    | some r => (none, some r)

/-- Claim C9: with no stored value under `complaintResult`, or a stored
value that fails to parse, the result page redirects to the builder and
renders no result; result cards are rendered exactly when the stored
value parses successfully. -/
theorem result_page_requires_parsed_result
    (parse : String → Option ComplaintResult) (stored : Option String) :
    ((stored = none ∨ ∃ s, stored = some s ∧ parse s = none) →
        resultPageLoad parse stored = (some "/builder", none)) ∧
      ∀ r : ComplaintResult,
        (resultPageLoad parse stored).2 = some r ↔
          ∃ s, stored = some s ∧ parse s = some r := by
  constructor
  · rintro (h | ⟨s, hs, hp⟩)
    · rw [h]; rfl
    · rw [hs]
      simp [resultPageLoad, hp]
  · intro r
    cases stored with
    | none => simp [resultPageLoad]
    | some s =>
      cases hp : parse s with
      | none => simp [resultPageLoad, hp]
      | some r2 => simp [resultPageLoad, hp, eq_comm]

/-- Witness for C9: an empty sessionStorage redirects to the builder. -/
theorem result_page_requires_parsed_result_witness :
    ((none : Option String) = none ∨
        ∃ s, (none : Option String) = some s ∧
          (fun _ : String => (none : Option ComplaintResult)) s = none) ∧
      resultPageLoad (fun _ => none) none = (some "/builder", none) :=
  ⟨Or.inl rfl,
    (result_page_requires_parsed_result (fun _ => none) none).1 (Or.inl rfl)⟩

/-- The default toast message of the catch block (line 142). -/
def defaultToastMsg : String := "Failed to generate complaint. Please try again."

/-- The outcome of the `fetch` call in `handleSubmit`:
an ok response whose body either parses to a result or throws while
parsing, a non-ok response carrying the optional `detail` of its error
body (absent or empty `detail` is `none`), or a rejected fetch. -/
inductive FetchResult
  | ok (body : Except String ComplaintResult)
  | httpError (detail : Option String)
  | networkError (message : String)

/-- The observable effects of one `handleSubmit` run after the POST:
what was written to `sessionStorage` under `complaintResult`, where the
router navigated, and the toast error shown. -/
structure SubmitOutcome where
  stored : Option ComplaintResult
  navigate : Option String
  toastMessage : Option String
deriving DecidableEq

/-- The response handling of `handleSubmit` (`builder/page.tsx` lines
131-146).  On an ok response with a parsed body: store the result and
navigate to `/result`.  Every thrown error — a non-ok response (rethrown
as `Error(detail \x7c\x7c 'Failed to generate complaint')`), a body
parse failure, or a network failure — lands in the catch block, which
only shows `toast.error(error.message \x7c\x7c default)`. -/
def handleFetchResponse : FetchResult → SubmitOutcome
  | .ok (.ok r) =>
    { stored := some r, navigate := some "/result", toastMessage := none }
  | .ok (.error m) =>
    { stored := none, navigate := none,
      toastMessage := some (if m = "" then defaultToastMsg else m) }
  | .httpError (some d) =>
    { stored := none, navigate := none, toastMessage := some d }
  | .httpError none =>
    { stored := none, navigate := none,
      toastMessage := some "Failed to generate complaint" }
  | .networkError m =>
    { stored := none, navigate := none,
      toastMessage := some (if m = "" then defaultToastMsg else m) }

/-- `handleSubmit` (lines 115-147): validate step 3; if it fails, return
before any backend call; otherwise POST the form and handle the
response.  Returns the stored errors, the posted payload (if any) and
the observable outcome. -/
def handleSubmit (f : FormData) (resp : FetchResult) :
    (Errors × Option FormData) × SubmitOutcome :=
  let r := validateStep 3 f
  if r.2 then ((r.1, some f), handleFetchResponse resp)
  else ((r.1, none),
    { stored := none, navigate := none, toastMessage := none })

/-- Claim C3: result delivery is all-or-nothing.  After `handleSubmit`,
a result is stored and the user navigated to `/result` exactly when the
backend response is ok and its body parses; on a non-ok response or a
network error nothing is stored, no navigation to the result page
happens, and an error toast is shown instead. -/
theorem result_delivery_all_or_nothing (f : FormData) (resp : FetchResult)
    (hv : validateStepB 3 f = true) :
    (∀ r, ((handleSubmit f resp).2).stored = some r ↔
        resp = .ok (.ok r)) ∧
      (((handleSubmit f resp).2).navigate = some "/result" ↔
        ∃ r, resp = .ok (.ok r)) ∧
      (((∃ d, resp = .httpError d) ∨ (∃ m, resp = .networkError m)) →
        ((handleSubmit f resp).2).stored = none ∧
          ((handleSubmit f resp).2).navigate = none ∧
          (((handleSubmit f resp).2).toastMessage).isSome = true) := by
  have hs : (handleSubmit f resp).2 = handleFetchResponse resp := by
    simp only [handleSubmit]
    rw [if_pos (show (validateStep 3 f).2 = true from hv)]
  rw [hs]
  refine ⟨fun r => ?_, ?_, ?_⟩
  · cases resp with
    | ok body =>
      cases body with
      | ok r2 => simp [handleFetchResponse]
      | error m => by_cases hm : m = "" <;> simp [handleFetchResponse, hm]
    | httpError d => cases d <;> simp [handleFetchResponse]
    | networkError m => by_cases hm : m = "" <;> simp [handleFetchResponse, hm]
  · cases resp with
    | ok body =>
      cases body with
      | ok r2 => simp [handleFetchResponse]
      | error m => by_cases hm : m = "" <;> simp [handleFetchResponse, hm]
    | httpError d => cases d <;> simp [handleFetchResponse]
    | networkError m => by_cases hm : m = "" <;> simp [handleFetchResponse, hm]
  · rintro (⟨d, rfl⟩ | ⟨m, rfl⟩)
    · cases d <;> simp [handleFetchResponse]
    · by_cases hm : m = "" <;> simp [handleFetchResponse, hm]

/-- A valid concrete form for the submit witnesses. -/
def demoForm : FormData :=
  { category := some .ecommerce_refund, tone := some .firm,
    title := "Delayed refund", incident_date := "", location := "",
    description := "The refund promised three weeks ago has not arrived.",
    company_or_institution := "", recipient_name := "",
    order_or_ticket_id := "", desired_resolution := "Full refund",
    proof_available := false }

/-- Witness for C3: a non-ok response stores nothing, navigates nowhere
and shows a toast. -/
theorem result_delivery_all_or_nothing_witness :
    validateStepB 3 demoForm = true ∧
      ((handleSubmit demoForm (.httpError (some "Validation failed"))).2).stored
          = none ∧
      ((handleSubmit demoForm
            (.httpError (some "Validation failed"))).2).navigate = none ∧
      (((handleSubmit demoForm
            (.httpError (some "Validation failed"))).2).toastMessage).isSome
          = true :=
  ⟨by decide,
    (result_delivery_all_or_nothing demoForm
        (.httpError (some "Validation failed")) (by decide)).2.2
      (Or.inl ⟨some "Validation failed", rfl⟩)⟩

/-- Modelled from the spec: the backend generation service is not among
the repository sources (only the frontend is); `RawModelOutput` is the
spec's "unvalidated mapping of field name to text, as returned by a
backend". -/
def RawModelOutput := List (String × String)
deriving instance DecidableEq for RawModelOutput

/-- Modelled from the spec: which backend an attempt targets. -/
inductive BackendId
  | primary
  | fallback
deriving DecidableEq

/-- Modelled from the spec: the outcome of one attempt against one
backend — a structurally valid response, a transient failure (network,
timeout, rate limit), or a response the Response Validator rejects. -/
inductive AttemptOutcome
  | success (r : RawModelOutput)
  | transientFailure (e : String)
  | schemaFailure (e : String)
deriving DecidableEq

/-- Whether an attempt produced a structurally valid response. -/
def AttemptOutcome.isSuccess : AttemptOutcome → Bool
  | .success _ => true
  | _ => false

/-- Modelled from the spec: the `GenerationUnavailable` failure,
carrying the last error from each backend for diagnostics. -/
inductive GenerationError
  | generationUnavailable (lastPrimary lastFallback : Option String)
deriving DecidableEq

/-- The error detail of an attempt, if it failed. -/
def attemptError : AttemptOutcome → Option String
  | .success _ => none
  | .transientFailure e => some e
  | .schemaFailure e => some e

/-- The last error among a backend's attempts. -/
def lastError (attempts : List AttemptOutcome) : Option String :=
  (attempts.filterMap attemptError).getLast?

/-- Modelled from the spec: the attempts actually made against one
backend.  The list holds the outcome each successive attempt of the
budget would produce; the loop stops at the first structurally valid
response, so the trace ends there. -/
def runTrace (b : BackendId) :
    List AttemptOutcome → List (BackendId × AttemptOutcome)
  | [] => []
  | o :: rest =>
    match o with
    | .success _ => [(b, o)]
    | _ => (b, o) :: runTrace b rest

/-- Modelled from the spec: the first structurally valid response among
a backend's attempts, if any. -/
def firstSuccess : List AttemptOutcome → Option RawModelOutput
  | [] => none
  | .success r :: _ => some r
  | _ :: rest => firstSuccess rest

/-- Modelled from the spec: the Model Invoker.  Attempt the primary
backend up to its budget; only when every primary attempt fails to
yield a structurally valid response, attempt the fallback the same way;
the first accepted response short-circuits; when both budgets are
exhausted, fail with `GenerationUnavailable` carrying the last error of
each backend.  Returns the attempt trace and the result. -/
def invokeModel (primary fb : List AttemptOutcome) :
    List (BackendId × AttemptOutcome) ×
      Except GenerationError RawModelOutput :=
  match firstSuccess primary with
  | some r => (runTrace .primary primary, .ok r)
  | none =>
    match firstSuccess fb with
    | some r => (runTrace .primary primary ++ runTrace .fallback fb, .ok r)
    | none =>
      (runTrace .primary primary ++ runTrace .fallback fb,
        .error (.generationUnavailable (lastError primary) (lastError fb)))

lemma firstSuccess_none_iff (l : List AttemptOutcome) :
    firstSuccess l = none ↔ ∀ o ∈ l, o.isSuccess = false := by
  induction l with
  | nil => simp [firstSuccess]
  | cons o rest ih =>
    cases o with
    | success r => simp [firstSuccess, AttemptOutcome.isSuccess]
    | transientFailure e => simp [firstSuccess, AttemptOutcome.isSuccess, ih]
    | schemaFailure e => simp [firstSuccess, AttemptOutcome.isSuccess, ih]

lemma runTrace_all_fail {b : BackendId} {l : List AttemptOutcome}
    (h : ∀ o ∈ l, o.isSuccess = false) :
    runTrace b l = l.map fun o => (b, o) := by
  induction l with
  | nil => rfl
  | cons o rest ih =>
    have ho := h o (List.mem_cons_self o rest)
    have hrest := ih fun x hx => h x (List.mem_cons_of_mem o hx)
    cases o with
    | success r => simp [AttemptOutcome.isSuccess] at ho
    | transientFailure e => simp [runTrace, hrest]
    | schemaFailure e => simp [runTrace, hrest]

lemma runTrace_cons (b : BackendId) (a : AttemptOutcome)
    (rest : List AttemptOutcome) :
    ∃ t, runTrace b (a :: rest) = (b, a) :: t := by
  cases a with
  | success r => exact ⟨[], rfl⟩
  | transientFailure e => exact ⟨runTrace b rest, rfl⟩
  | schemaFailure e => exact ⟨runTrace b rest, rfl⟩

/-- Claim C7 (modelled from the spec): when every primary attempt fails
to yield a structurally valid response, the Model Invoker goes on to
attempt the fallback backend — the attempt trace continues past the full
primary budget into a fallback attempt — and the call fails, with
`GenerationUnavailable`, exactly when the fallback attempt budget is
also exhausted without a valid response. -/
theorem fallback_attempted_before_failing (primary fb : List AttemptOutcome)
    (hp : ∀ o ∈ primary, o.isSuccess = false) (hfb : fb ≠ []) :
    (∃ a t, (invokeModel primary fb).1 =
        (primary.map fun o => (BackendId.primary, o)) ++
          ((BackendId.fallback, a) :: t)) ∧
      ((invokeModel primary fb).2 =
          Except.error
            (.generationUnavailable (lastError primary) (lastError fb)) ↔
        ∀ o ∈ fb, o.isSuccess = false) ∧
      ∀ e, (invokeModel primary fb).2 = .error e →
        e = .generationUnavailable (lastError primary) (lastError fb) := by
  have hp1 : firstSuccess primary = none := (firstSuccess_none_iff primary).2 hp
  have hp2 : runTrace .primary primary = primary.map fun o => (BackendId.primary, o) :=
    runTrace_all_fail hp
  obtain ⟨a, rest, rfl⟩ : ∃ a rest, fb = a :: rest := by
    cases fb with
    | nil => exact absurd rfl hfb
    | cons a rest => exact ⟨a, rest, rfl⟩
  obtain ⟨t, ht⟩ := runTrace_cons BackendId.fallback a rest
  cases hf : firstSuccess (a :: rest) with
  | some r =>
    have hinv : invokeModel primary (a :: rest) =
        (runTrace .primary primary ++ runTrace .fallback (a :: rest),
          .ok r) := by
      simp [invokeModel, hp1, hf]
    refine ⟨⟨a, t, ?_⟩, ?_, ?_⟩
    · rw [hinv]
      simp [hp2, ht]
    · rw [hinv]
      simp only
      constructor
      · intro he
        exact absurd he (by simp)
      · intro hall
        rw [(firstSuccess_none_iff (a :: rest)).2 hall] at hf
        exact Option.noConfusion hf
    · intro e he
      rw [hinv] at he
      exact absurd he (by simp)
  | none =>
    have hinv : invokeModel primary (a :: rest) =
        (runTrace .primary primary ++ runTrace .fallback (a :: rest),
          .error (.generationUnavailable (lastError primary)
            (lastError (a :: rest)))) := by
      simp [invokeModel, hp1, hf]
    refine ⟨⟨a, t, ?_⟩, ?_, ?_⟩
    · rw [hinv]
      simp [hp2, ht]
    · rw [hinv]
      exact ⟨fun _ => (firstSuccess_none_iff (a :: rest)).1 hf, fun _ => rfl⟩
    · intro e he
      rw [hinv] at he
      simp at he
      exact he.symm

/-- Witness for C7: two failing primary attempts, then a fallback whose
second attempt succeeds. -/
theorem fallback_attempted_before_failing_witness :
    (∀ o ∈ [AttemptOutcome.transientFailure "timeout",
        AttemptOutcome.transientFailure "rate limit"], o.isSuccess = false) ∧
      ([AttemptOutcome.schemaFailure "missing field",
          AttemptOutcome.success [("whatsapp_message", "ok")]] ≠ []) ∧
      ∃ a t,
        (invokeModel
            [AttemptOutcome.transientFailure "timeout",
              AttemptOutcome.transientFailure "rate limit"]
            [AttemptOutcome.schemaFailure "missing field",
              AttemptOutcome.success [("whatsapp_message", "ok")]]).1 =
          ([AttemptOutcome.transientFailure "timeout",
              AttemptOutcome.transientFailure "rate limit"].map
            fun o => (BackendId.primary, o)) ++
            ((BackendId.fallback, a) :: t) :=
  ⟨by decide, by simp,
    (fallback_attempted_before_failing
        [AttemptOutcome.transientFailure "timeout",
          AttemptOutcome.transientFailure "rate limit"]
        [AttemptOutcome.schemaFailure "missing field",
          AttemptOutcome.success [("whatsapp_message", "ok")]]
        (by decide) (by simp)).1⟩

end EscalateAI
